import Mathlib

/-!
Verification of the SpringQL runtime core against its specification.

The definitions below are a shallow embedding of the Rust sources:

* `src/springql-core/src/pipeline.rs` — the `Pipeline` value, its mutators
  (`add_stream`, `add_pump`, `add_source_reader`, `add_sink_writer`),
  `register_name`, `update_version`, and the host API functions
  `spring_open`, `spring_pop`, `spring_pop_non_blocking`;
* `src/springql-core/src/stream_engine/autonomous_executor/task/pump_task/pump_subtask/query_subtask.rs`
  — `QuerySubtask::run`, `run_leaf`, `run_non_leaf`, `leaf_node_idx`,
  `parent_node_idx`, and `SqlValues::into_row`;
* `src/springql-core/src/stream_engine/command/query_plan/query_plan_operation.rs`
  — `JoinOp`;
* `src/src/stream_engine/executor/data/foreign_input_row.rs` —
  `ForeignInputRow::_into_row` (a `todo!()` stub; modelled from the spec).

Rust's `&mut self` methods returning `Result<()>` are embedded as functions
`State → State × Option SpringErrorKind`: the returned state reflects every
mutation performed before an early `?`-return, exactly as the caller of the
Rust method observes it.  Fallible pure code is embedded with `Except`;
`panic!`/`unreachable!`/`expect` sites are embedded as `Option` with `none`
for the panic.  Machine integers that can only grow (the pipeline version)
are embedded as `Nat`.
-/

namespace SpringQL

/-- Error kinds of `SpringError` (api/error.rs), as listed in the spec §7. -/
inductive SpringErrorKind where
  | Sql
  | InvalidOption
  | Unavailable
  | ForeignIo
  | ForeignSourceTimeout
  | ForeignSinkTimeout
  | Internal
  deriving DecidableEq, Repr

/-! ## Pipeline graph model (pipeline.rs and pipeline submodules) -/

/-- SQL column types (subset sufficient for the claims). -/
inductive SqlType where
  | integer
  | text
  | timestamp
  deriving DecidableEq, Repr

/-- One column of a stream shape: `(column_name, sql_type, nullable)` (spec §3 StreamModel). -/
structure ColumnDef where
  name : String
  ty : SqlType
  nullable : Bool
  deriving DecidableEq, Repr

/-- `StreamModel`: `(name, shape)`; the shape is an ordered list of columns. -/
structure StreamModel where
  name : String
  shape : List ColumnDef
  deriving DecidableEq, Repr

/-- `PumpModel` (fields relevant to graph mutation). -/
structure PumpModel where
  name : String
  upstream : String
  downstream : String
  deriving DecidableEq, Repr

/-- `SourceReaderModel` (fields relevant to graph mutation). -/
structure SourceReaderModel where
  name : String
  dest_stream : String
  deriving DecidableEq, Repr

/-- `SinkWriterModel` (fields relevant to graph mutation). -/
structure SinkWriterModel where
  name : String
  from_stream : String
  deriving DecidableEq, Repr

/-- Modelled from the spec: `PipelineGraph` (pipeline_graph.rs is not among the
sources); §3: "a directed multigraph whose nodes are Stream models and whose
edges are Pump, SourceReader, or SinkWriter entries". -/
structure PipelineGraph where
  streams : List StreamModel
  pumps : List PumpModel
  sources : List SourceReaderModel
  sinks : List SinkWriterModel
  deriving DecidableEq, Repr

def PipelineGraph.empty : PipelineGraph := ⟨[], [], [], []⟩

def PipelineGraph.hasStream (g : PipelineGraph) (s : String) : Bool :=
  g.streams.any (fun st => st.name == s)

/-- Modelled from the spec: `PipelineGraph::add_stream` attaches the stream node
(name uniqueness is already enforced by `Pipeline::register_name`). -/
def PipelineGraph.add_stream (g : PipelineGraph) (s : StreamModel) :
    Except SpringErrorKind PipelineGraph :=
  .ok { g with streams := g.streams ++ [s] }

/-- Modelled from the spec: `PipelineGraph::add_pump` attaches a pump edge;
§3: "every pump edge references two existing stream nodes (upstream,
downstream)", and `Pipeline::add_pump` documents the `Sql` failure when either
stream name is not found in the pipeline. -/
def PipelineGraph.add_pump (g : PipelineGraph) (p : PumpModel) :
    Except SpringErrorKind PipelineGraph :=
  if g.hasStream p.upstream && g.hasStream p.downstream then
    .ok { g with pumps := g.pumps ++ [p] }
  else
    .error .Sql

/-- Modelled from the spec: `PipelineGraph::add_source_reader` attaches a source
edge terminating at an existing stream node (§3). -/
def PipelineGraph.add_source_reader (g : PipelineGraph) (sr : SourceReaderModel) :
    Except SpringErrorKind PipelineGraph :=
  if g.hasStream sr.dest_stream then
    .ok { g with sources := g.sources ++ [sr] }
  else
    .error .Sql

/-- Modelled from the spec: `PipelineGraph::add_sink_writer` attaches a sink
edge originating at an existing stream node (§3). -/
def PipelineGraph.add_sink_writer (g : PipelineGraph) (sw : SinkWriterModel) :
    Except SpringErrorKind PipelineGraph :=
  if g.hasStream sw.from_stream then
    .ok { g with sinks := g.sinks ++ [sw] }
  else
    .error .Sql

/-- The `Pipeline` struct (pipeline.rs lines 159-164): version, unique object
names, graph.  `PipelineVersion` is embedded as `Nat`; the `HashSet<String>`
of object names as a `List String` that `register_name` keeps duplicate-free. -/
structure Pipeline where
  version : Nat
  object_names : List String
  graph : PipelineGraph
  deriving DecidableEq, Repr

/-- `Pipeline::new`. -/
def Pipeline.new (version : Nat) : Pipeline :=
  ⟨version, [], PipelineGraph.empty⟩

/-- `Pipeline::update_version` calls `PipelineVersion::up`.  Modelled from the
spec for `up` itself (pipeline_version.rs is not among the sources): §3 says
the version is "a monotonically increasing integer bumped on every successful
mutation", so `up` is `+ 1`. -/
def Pipeline.update_version (p : Pipeline) : Pipeline :=
  { p with version := p.version + 1 }

/-- `Pipeline::register_name` (pipeline.rs lines 239-248): `HashSet::insert`
returns `false` when the name is present, in which case the method returns a
`Sql` error; otherwise the name is inserted. -/
def Pipeline.register_name (p : Pipeline) (name : String) :
    Pipeline × Option SpringErrorKind :=
  if p.object_names.contains name then
    (p, some .Sql)
  else
    ({ p with object_names := name :: p.object_names }, none)

/-- `Pipeline::add_stream` (pipeline.rs lines 207-211): bump version, register
the stream name (`?`-return on clash), attach the stream node. -/
def Pipeline.add_stream (p : Pipeline) (s : StreamModel) :
    Pipeline × Option SpringErrorKind :=
  let p1 := p.update_version
  match p1.register_name s.name with
  | (p2, some e) => (p2, some e)
  | (p2, none) =>
    match p2.graph.add_stream s with
    | .error e => (p2, some e)
    | .ok g => ({ p2 with graph := g }, none)

/-- `Pipeline::add_pump` (pipeline.rs lines 197-201): bump version, register
the pump name (`?`-return on clash), attach the pump edge. -/
def Pipeline.add_pump (p : Pipeline) (pm : PumpModel) :
    Pipeline × Option SpringErrorKind :=
  let p1 := p.update_version
  match p1.register_name pm.name with
  | (p2, some e) => (p2, some e)
  | (p2, none) =>
    match p2.graph.add_pump pm with
    | .error e => (p2, some e)
    | .ok g => ({ p2 with graph := g }, none)

/-- `Pipeline::add_source_reader` (pipeline.rs lines 216-219): bump version and
attach the source edge.  Note: unlike `add_stream`/`add_pump`, the source does
NOT call `register_name`. -/
def Pipeline.add_source_reader (p : Pipeline) (sr : SourceReaderModel) :
    Pipeline × Option SpringErrorKind :=
  let p1 := p.update_version
  match p1.graph.add_source_reader sr with
  | .error e => (p1, some e)
  | .ok g => ({ p1 with graph := g }, none)

/-- `Pipeline::add_sink_writer` (pipeline.rs lines 223-226): bump version and
attach the sink edge.  As in the source, no `register_name` call. -/
def Pipeline.add_sink_writer (p : Pipeline) (sw : SinkWriterModel) :
    Pipeline × Option SpringErrorKind :=
  let p1 := p.update_version
  match p1.graph.add_sink_writer sw with
  | .error e => (p1, some e)
  | .ok g => ({ p1 with graph := g }, none)

/-! ## SQL values, tuples, rows -/

/-- SQL values (subset sufficient for the claims). -/
inductive SqlValue where
  | null
  | int (n : Int)
  | text (s : String)
  | timestamp (s : String)
  deriving DecidableEq, Repr

/-- Whether a value satisfies a column's type and nullability constraint. -/
def SqlValue.conformsTo (v : SqlValue) (c : ColumnDef) : Bool :=
  match v with
  | .null => c.nullable
  | .int _ => c.ty == .integer
  | .text _ => c.ty == .text
  | .timestamp _ => c.ty == .timestamp

/-- `Tuple` (spec §3): an in-flight value during plan evaluation, "a flat
ordered list of labelled SQL values". -/
abbrev Tuple := List (String × SqlValue)

/-- A `Row` committed to a stream shape: its column values in shape order. -/
structure Row where
  columns : List (String × SqlValue)
  deriving DecidableEq, Repr

/-! ## Query plan operations (query_plan_operation.rs) -/

/-- `CollectOp` (query_plan_operation.rs lines 50-53). -/
structure CollectOp where
  stream : String
  deriving DecidableEq, Repr

/-- Modelled from the spec: `JoinType` (join_parameter.rs is not among the
sources); the spec's SQL surface supports the equijoin of two collected
streams (§1, §9). -/
inductive JoinType where
  | leftOuter
  deriving DecidableEq, Repr

/-- Modelled from the spec: value expressions (`expression::ValueExpr` is not
among the sources); only their presence in `JoinOp::Join` matters here. -/
inductive ValueExpr where
  | field (name : String)
  | constant (v : SqlValue)
  | eq (l r : ValueExpr)
  deriving DecidableEq, Repr

/-- `JoinOp` (query_plan_operation.rs lines 55-65): the lower operation of a
query plan is either a single `Collect` or a `Join` of two `Collect`s. -/
inductive JoinOp where
  | collect (op : CollectOp)
  | join (left : CollectOp) (right : CollectOp) (join_type : JoinType)
      (on_expr : ValueExpr)

/-- Number of `Collect` leaves a `JoinOp` describes. -/
def JoinOp.numCollectLeaves : JoinOp → Nat
  | .collect _ => 1
  | .join _ _ _ _ => 2

/-! ## Query subtask tree (query_subtask.rs) -/

/-- In-queue metrics delta attributed to the Collect leaf
(`InQueueMetricsUpdateByTaskExecution`): rows and bytes consumed (spec §4.2). -/
structure InQueueMetricsUpdateByTaskExecution where
  rows_used : Nat
  bytes_used : Nat
  deriving DecidableEq, Repr

/-- `QuerySubtaskOut` (query_subtask.rs lines 81-86). -/
structure QuerySubtaskOut where
  values_seq : List Tuple
  in_queue_metrics_update : InQueueMetricsUpdateByTaskExecution
  deriving DecidableEq, Repr

/-- `ChildDirection` (child_direction.rs is not among the sources; spec §3:
"Edges indicate child direction (Left/Right for joins)"). -/
inductive ChildDirection where
  | left
  | right
  deriving DecidableEq, Repr

/-- `QuerySubtaskNode` has exactly the three variants matched exhaustively in
`QuerySubtask::run_non_leaf` / `run_leaf` (query_subtask.rs lines 137-161):
`Collect`, `Projection`, `EvalValueExpr`.  The projection / value-expression
subtasks are carried as their `run` functions `Tuple → Result<Tuple>`, the
Rust signature that forces a single output tuple on success. -/
inductive QuerySubtaskNode where
  | collect (stream : String)
  | projection (f : Tuple → Except SpringErrorKind Tuple)
  | evalValueExpr (f : Tuple → Except SpringErrorKind Tuple)

/-- `QuerySubtask` (query_subtask.rs lines 32-35): a petgraph `DiGraph` of
subtask nodes, embedded as an arena of nodes (index order = insertion order)
and a list of parent→child edges. -/
structure QuerySubtask where
  nodes : List QuerySubtaskNode
  edges : List (Nat × Nat × ChildDirection)

/-- The task's visible state: for each upstream stream name, the content of
its queue in the row repository (`none` when the queue does not exist). -/
abbrev TaskContext := String → Option (List Tuple)

/-- Replace the content of one queue. -/
def updateQueue (ctx : TaskContext) (s : String) (q : List Tuple) : TaskContext :=
  fun name => if name == s then some q else ctx name

/-- Modelled from the spec: `CollectSubtask::run` (query_subtask_node is not
among the sources).  Spec §4.2: the Collect leaf reads from the upstream row
repository and "returns `None` when its upstream queue is empty" (or does not
exist, per the `run` doc comment in query_subtask.rs); otherwise it returns an
ordered sequence of tuples plus the in-queue metrics delta (rows consumed,
bytes consumed) attributed to the leaf.  The yield discipline (§4.5) bounds a
pump quantum to one leaf-run worth of rows: one tuple per call. -/
def collectRun (stream : String) (ctx : TaskContext) :
    Option (QuerySubtaskOut × TaskContext) :=
  match ctx stream with
  | none => none
  | some [] => none
  | some (t :: rest) =>
      some (⟨[t], ⟨1, t.length⟩⟩, updateQueue ctx stream rest)

/-- `QuerySubtask::leaf_node_idx` (query_subtask.rs lines 163-174): the first
node (in node-index order) with no outgoing edge; the source `expect`s that
one exists ("asserting only 1 leaf currently. TODO multiple leaves"), embedded
as `Option`. -/
def QuerySubtask.leaf_node_idx (t : QuerySubtask) : Option Nat :=
  (List.range t.nodes.length).find? (fun i => !(t.edges.any (fun e => e.1 == i)))

/-- `QuerySubtask::parent_node_idx` (query_subtask.rs lines 176-181): the
source of the first incoming edge, if any. -/
def QuerySubtask.parent_node_idx (t : QuerySubtask) (n : Nat) : Option Nat :=
  (t.edges.find? (fun e => e.2.1 == n)).map (fun e => e.1)

/-- `QuerySubtask::run_non_leaf` (query_subtask.rs lines 137-150): dispatch on
the node kind; Projection and EvalValueExpr wrap their single output tuple
into a one-element sequence; a missing node or a Collect node is a panic
(`expect` / `unreachable!`), embedded as `none`. -/
def QuerySubtask.run_non_leaf (t : QuerySubtask) (idx : Nat) (tuple : Tuple) :
    Option (Except SpringErrorKind (List Tuple)) :=
  match t.nodes[idx]? with
  | none => none
  | some (.collect _) => none
  | some (.projection f) => some ((f tuple).map (fun u => [u]))
  | some (.evalValueExpr f) => some ((f tuple).map (fun u => [u]))

/-- One level of the `run` loop (query_subtask.rs lines 119-123): map
`run_non_leaf` over the tuples, short-circuit on the first error
(`collect::<Result<…>>`), and concatenate the per-tuple outputs. -/
def QuerySubtask.stepTuples (t : QuerySubtask) (idx : Nat) :
    List Tuple → Option (Except SpringErrorKind (List Tuple))
  | [] => some (.ok [])
  | tu :: rest =>
    match t.run_non_leaf idx tu with
    | none => none
    | some (.error e) => some (.error e)
    | some (.ok us) =>
      match t.stepTuples idx rest with
      | none => none
      | some (.error e) => some (.error e)
      | some (.ok vs) => some (.ok (us ++ vs))

/-- The `while let Some(parent_idx)` loop of `run` (query_subtask.rs lines
117-124), walking from the leaf towards the root.  The `fuel` bound makes the
loop a total function; `none` marks fuel exhaustion (the loop would still be
running), which cannot happen on a tree when `fuel > ` the chain length. -/
def QuerySubtask.runUp (t : QuerySubtask) :
    Nat → Nat → List Tuple → Option (Except SpringErrorKind (List Tuple))
  | 0, _, _ => none
  | fuel + 1, idx, tuples =>
    match t.parent_node_idx idx with
    | none => some (.ok tuples)
    | some p =>
      match t.stepTuples p tuples with
      | none => none
      | some (.error e) => some (.error e)
      | some (.ok next) => t.runUp fuel p next

/-- `QuerySubtask::run_leaf` (query_subtask.rs lines 155-161): the node must
be a Collect (otherwise `unreachable!`, embedded as the outer `none`). -/
def QuerySubtask.run_leaf (t : QuerySubtask) (idx : Nat) (ctx : TaskContext) :
    Option (Option (QuerySubtaskOut × TaskContext)) :=
  match t.nodes[idx]? with
  | some (.collect s) => some (collectRun s ctx)
  | _ => none

/-- `QuerySubtask::run` (query_subtask.rs lines 107-132).  Returns the
`Result<Option<QuerySubtaskOut>>` together with the final queue state; the
outer `Option` marks a panic (`leaf_node_idx` / `run_leaf` expectations) or
fuel exhaustion.  `t.nodes.length + 1` fuel covers every parent chain without
repeated nodes. -/
def QuerySubtask.run (t : QuerySubtask) (ctx : TaskContext) :
    Option (Except SpringErrorKind (Option QuerySubtaskOut) × TaskContext) :=
  match t.leaf_node_idx with
  | none => none
  | some leafIdx =>
    match t.run_leaf leafIdx ctx with
    | none => none
    | some none => some (.ok none, ctx)
    | some (some (leafOut, ctx2)) =>
      match t.runUp (t.nodes.length + 1) leafIdx leafOut.values_seq with
      | none => none
      | some (.error e) => some (.error e, ctx2)
      | some (.ok finalTuples) =>
        some (.ok (some ⟨finalTuples, leafOut.in_queue_metrics_update⟩), ctx2)

/-! ### Denotation of the operator chain (for the composition claim) -/

/-- The strict ancestors of a node, nearest first, up to `fuel` hops. -/
def QuerySubtask.parentChain (t : QuerySubtask) : Nat → Nat → List Nat
  | 0, _ => []
  | fuel + 1, idx =>
    match t.parent_node_idx idx with
    | none => []
    | some p => p :: t.parentChain fuel p

/-- The tuple-transformer a non-leaf node denotes (`none` for Collect or a
missing node, matching the panic branches of `run_non_leaf`). -/
def QuerySubtask.nodeFun (t : QuerySubtask) (idx : Nat) :
    Option (Tuple → Except SpringErrorKind (List Tuple)) :=
  match t.nodes[idx]? with
  | none => none
  | some (.collect _) => none
  | some (.projection f) => some (fun tu => (f tu).map (fun u => [u]))
  | some (.evalValueExpr f) => some (fun tu => (f tu).map (fun u => [u]))

/-- Apply one operator to every tuple of a sequence, in input order, and
concatenate the images (short-circuiting on the first error). -/
def applyOneLevel (f : Tuple → Except SpringErrorKind (List Tuple)) :
    List Tuple → Except SpringErrorKind (List Tuple)
  | [] => .ok []
  | tu :: rest =>
    match f tu with
    | .error e => .error e
    | .ok us =>
      match applyOneLevel f rest with
      | .error e => .error e
      | .ok vs => .ok (us ++ vs)

/-- Apply a chain of operators, leaf-nearest first. -/
def applyChain : List (Tuple → Except SpringErrorKind (List Tuple)) →
    List Tuple → Except SpringErrorKind (List Tuple)
  | [], tus => .ok tus
  | f :: fs, tus =>
    match applyOneLevel f tus with
    | .error e => .error e
    | .ok next => applyChain fs next

/-! ## In-memory queue pop (pipeline.rs spring_pop / spring_pop_non_blocking) -/

/-- A row held in an in-memory sink queue. -/
abbrev SinkRow := List (String × SqlValue)

/-- Modelled from the spec: the engine's `pop_in_memory_queue_non_blocking`
(the stream-engine internals are not among the sources).  Spec §4.4 / §6:
`pop` on an undeclared queue fails with kind `Unavailable`; the non-blocking
pop returns `Some` with the front row when the named FIFO is non-empty and
`None` when it is empty.  The argument is the queue's content at the moment of
the call, `none` when the queue is not declared. -/
def popInMemoryQueueNonBlocking (q : Option (List SinkRow)) :
    Except SpringErrorKind (Option SinkRow) :=
  match q with
  | none => .error .Unavailable
  | some [] => .ok none
  | some (r :: _) => .ok (some r)

/-- `spring_pop_non_blocking` (pipeline.rs lines 150-157): a single
non-blocking pop against the current content of the named queue. -/
def spring_pop_non_blocking (q : Option (List SinkRow)) :
    Except SpringErrorKind (Option SinkRow) :=
  popInMemoryQueueNonBlocking q

/-- `spring_pop` (pipeline.rs lines 123-137): loop — pop non-blocking; return
the row on `Some`; propagate the error with `?`; otherwise sleep 10 ms and
retry.  `env i` is the named queue's content observed at the i-th poll; the
`fuel` bound makes the loop total, `none` meaning the call is still blocked
after `fuel` polls. -/
def spring_pop_loop (env : Nat → Option (List SinkRow)) :
    Nat → Option (Except SpringErrorKind SinkRow)
  | 0 => none
  | fuel + 1 =>
    match popInMemoryQueueNonBlocking (env 0) with
    | .error e => some (.error e)
    | .ok (some r) => some (.ok r)
    | .ok none => spring_pop_loop (fun i => env (i + 1)) fuel

/-- The claim's reference behaviour, stated from the spec's words: repeatedly
invoke `spring_pop_non_blocking` on the same queue (the i-th call observing
`env i`) and take the result of the first call that returns `Some` a row — or
the first error. -/
def firstSomeOfRepeatedPopNonBlocking (env : Nat → Option (List SinkRow))
    (fuel : Nat) : Option (Except SpringErrorKind SinkRow) :=
  (List.range fuel).findSome? (fun i =>
    match spring_pop_non_blocking (env i) with
    | .error e => some (.error e)
    | .ok (some r) => some (.ok r)
    | .ok none => none)

/-! ## SqlValues::into_row (query_subtask.rs lines 39-79) -/

/-- The flat value list `SqlValues(Vec<SqlValue>)`. -/
abbrev SqlValues := List SqlValue

/-- `ColumnValues` (column_values.rs is not among the sources): an ordered
column-name → value map whose `insert` fails on a duplicate key, as the
`expect("duplicate column name")` call site shows. -/
structure ColumnValues where
  entries : List (String × SqlValue)
  deriving DecidableEq, Repr

/-- `ColumnValues::insert`: fails (`none`) on a duplicate column name. -/
def ColumnValues.insert (cv : ColumnValues) (name : String) (v : SqlValue) :
    Option ColumnValues :=
  if cv.entries.any (fun p => p.1 == name) then none
  else some ⟨cv.entries ++ [(name, v)]⟩

/-- `SqlValues::mk_column_values` (query_subtask.rs lines 68-78): fold the
zipped `(column_name, value)` pairs into a `ColumnValues`, panicking (`none`)
on a duplicate name. -/
def mk_column_values_aux : List (String × SqlValue) → ColumnValues → Option ColumnValues
  | [], acc => some acc
  | (n, v) :: rest, acc =>
    match acc.insert n v with
    | none => none
    | some acc2 => mk_column_values_aux rest acc2

/-- Modelled from the spec: `StreamColumns::new` (stream_column.rs is not
among the sources) validates the column values against the stream shape — §3
Row: "column_values maps each column name in stream_shape to a typed SQL
value; the map is complete (no missing keys) and type-conformant" — failing on
a shape or type mismatch, as the `expect("type or shape mismatch? …")` call
site shows.  On success the values are held in shape order. -/
def StreamColumns.new (sm : StreamModel) (cv : ColumnValues) :
    Except SpringErrorKind (List (String × SqlValue)) :=
  if cv.entries.length == sm.shape.length
      && sm.shape.all (fun c =>
          match cv.entries.lookup c.name with
          | some v => v.conformsTo c
          | none => false) then
    .ok (sm.shape.map (fun c => (c.name, (cv.entries.lookup c.name).getD .null)))
  else
    .error .Internal

/-- `SqlValues::into_row` (query_subtask.rs lines 55-66): assert equal arity,
build the column map, validate against the downstream shape, wrap into a
`Row`; every panic site is embedded as `none`. -/
def SqlValues.into_row (vals : SqlValues) (sm : StreamModel)
    (column_order : List String) : Option Row :=
  if vals.length == column_order.length then
    match mk_column_values_aux (column_order.zip vals) ⟨[]⟩ with
    | none => none
    | some cv =>
      match StreamColumns.new sm cv with
      | .error _ => none
      | .ok cols => some ⟨cols⟩
  else none

/-! ## Foreign input row (src/src/.../foreign_input_row.rs) -/

/-- JSON values (subset sufficient for the row wire format). -/
inductive JsonValue where
  | null
  | num (n : Int)
  | str (s : String)
  deriving DecidableEq, Repr

/-- A JSON object: ordered field list. -/
abbrev JsonObject := List (String × JsonValue)

/-- Modelled from the spec: JSON value → SQL value coercion for one column
(§6 row wire format).  A JSON type that does not fit the column is malformed
foreign data, kind `ForeignIo`; a JSON `null` is only allowed for a nullable
column.  (RFC 3339 validation of a ROWTIME string is delegated to the
timestamp parser and not modelled; no claim mentions it.) -/
def coerceJson (jv : JsonValue) (c : ColumnDef) : Except SpringErrorKind SqlValue :=
  match jv, c.ty with
  | .null, _ => if c.nullable then .ok .null else .error .ForeignIo
  | .num n, .integer => .ok (.int n)
  | .str s, .text => .ok (.text s)
  | .str s, .timestamp => .ok (.timestamp s)
  | _, _ => .error .ForeignIo

/-- One column of the row wire format: take the column's field from the JSON
object; coerce it when present; a missing field yields `null` for a nullable
column and a `ForeignIo` error for a non-nullable one (spec §6). -/
def columnFromJson (json : JsonObject) (c : ColumnDef) :
    Except SpringErrorKind (String × SqlValue) :=
  match json.lookup c.name with
  | some jv => (coerceJson jv c).map (fun v => (c.name, v))
  | none =>
    if c.nullable then .ok (c.name, SqlValue.null) else .error .ForeignIo

/-- Convert every column of the shape, left to right, short-circuiting on the
first error. -/
def intoRowAux (json : JsonObject) : List ColumnDef →
    Except SpringErrorKind (List (String × SqlValue))
  | [] => .ok []
  | c :: rest =>
    match columnFromJson json c with
    | .error e => .error e
    | .ok p => (intoRowAux json rest).map (fun l => p :: l)

/-- The row wire format of spec §6 as a function: "JSON object with one field
per stream column; unknown fields ignored; missing nullable fields → null;
missing non-null fields → `ForeignIo` error".  This is the conversion that
`ForeignInputRow::_into_row` is documented and specified to perform
("Immediately converted into Row on stream-engine boundary"); it is NOT the
embedding of the stub's body — see `ForeignInputRow.intoRow` below — and is
used only to state what the claim expects against what the code does. -/
def wireFormatIntoRow (json : JsonObject) (sm : StreamModel) :
    Except SpringErrorKind Row :=
  (intoRowAux json sm.shape).map Row.mk

/-- `ForeignInputRow::_into_row` (foreign_input_row.rs lines 20-22) as it
stands in the source: the body is `todo!()`, which unconditionally panics, so
no `Result<Row>` is ever produced.  The panic is embedded as `none`. -/
def ForeignInputRow.intoRow (_json : JsonObject) (_sm : StreamModel) :
    Option (Except SpringErrorKind Row) :=
  none

/-! ## spring_open (pipeline.rs lines 79-89) -/

/-- `SpringConfig` (spec §6 configuration keys). -/
structure SpringConfig where
  n_worker_threads : Nat
  source_net_connect_timeout_msec : Nat
  source_net_read_timeout_msec : Nat
  deriving DecidableEq, Repr

/-- `SqlProcessor::default()`. -/
inductive SqlProcessor where
  | mk
  deriving DecidableEq, Repr

/-- `EngineMutex::new` does not return a `Result` (its call in `spring_open`
is not followed by `?`): engine construction is embedded as infallible. -/
structure EngineMutex where
  config : SpringConfig
  deriving DecidableEq, Repr

def EngineMutex.new (config : SpringConfig) : EngineMutex := ⟨config⟩

/-- `SpringPipeline` (pipeline.rs lines 62-66). -/
structure SpringPipeline where
  engine : EngineMutex
  sql_processor : SqlProcessor
  deriving DecidableEq, Repr

/-- `spring_open` (pipeline.rs lines 79-89): set up the logger, build the
engine and the SQL processor, and return `Ok` — there is no error branch. -/
def spring_open (config : SpringConfig) : Except SpringErrorKind SpringPipeline :=
  .ok ⟨EngineMutex.new config, SqlProcessor.mk⟩

/-! ## Theorems -/

/-- Claim C1: every successful pipeline mutation (add_stream, add_pump,
add_source_reader, add_sink_writer) — each taken on its own — yields a
pipeline whose version equals the old version plus 1; after a successful
add_stream or add_pump the unique-name set is a strict superset of the old
one, gaining exactly the new element's name, which was not previously
present (and the source/sink mutators leave the name set as it was). -/
theorem C1_success_bumps_version_and_names
    (p : Pipeline) (s : StreamModel) (pm : PumpModel)
    (sr : SourceReaderModel) (sw : SinkWriterModel) :
    (∀ ps, p.add_stream s = (ps, none) →
      ps.version = p.version + 1 ∧
      s.name ∉ p.object_names ∧ ps.object_names = s.name :: p.object_names) ∧
    (∀ pp, p.add_pump pm = (pp, none) →
      pp.version = p.version + 1 ∧
      pm.name ∉ p.object_names ∧ pp.object_names = pm.name :: p.object_names) ∧
    (∀ psr, p.add_source_reader sr = (psr, none) →
      psr.version = p.version + 1 ∧ psr.object_names = p.object_names) ∧
    (∀ psw, p.add_sink_writer sw = (psw, none) →
      psw.version = p.version + 1 ∧ psw.object_names = p.object_names) := by
  refine ⟨?_, ?_, ?_, ?_⟩
  · intro ps hs
    by_cases hmem : s.name ∈ p.object_names
    · simp [Pipeline.add_stream, Pipeline.update_version, Pipeline.register_name,
        hmem] at hs
    · simp [Pipeline.add_stream, Pipeline.update_version, Pipeline.register_name,
        PipelineGraph.add_stream, hmem, Prod.mk.injEq] at hs
      subst hs
      exact ⟨rfl, hmem, rfl⟩
  · intro pp hp
    by_cases hmem : pm.name ∈ p.object_names
    · simp [Pipeline.add_pump, Pipeline.update_version, Pipeline.register_name,
        hmem] at hp
    · by_cases hg : (p.graph.hasStream pm.upstream && p.graph.hasStream pm.downstream) = true
      · simp [Pipeline.add_pump, Pipeline.update_version, Pipeline.register_name,
          PipelineGraph.add_pump, hmem, hg, Prod.mk.injEq] at hp
        subst hp
        exact ⟨rfl, hmem, rfl⟩
      · simp [Pipeline.add_pump, Pipeline.update_version, Pipeline.register_name,
          PipelineGraph.add_pump, hmem, hg] at hp
  · intro psr hsr
    by_cases hg : p.graph.hasStream sr.dest_stream
    · simp [Pipeline.add_source_reader, Pipeline.update_version,
        PipelineGraph.add_source_reader, hg, Prod.mk.injEq] at hsr
      subst hsr
      exact ⟨rfl, rfl⟩
    · simp [Pipeline.add_source_reader, Pipeline.update_version,
        PipelineGraph.add_source_reader, hg] at hsr
  · intro psw hsw
    by_cases hg : p.graph.hasStream sw.from_stream
    · simp [Pipeline.add_sink_writer, Pipeline.update_version,
        PipelineGraph.add_sink_writer, hg, Prod.mk.injEq] at hsw
      subst hsw
      exact ⟨rfl, rfl⟩
    · simp [Pipeline.add_sink_writer, Pipeline.update_version,
        PipelineGraph.add_sink_writer, hg] at hsw

/-- A pipeline holding one stream named "st" and one reserved name "st". -/
def examplePipeline : Pipeline := ⟨1, ["st"], ⟨[⟨"st", []⟩], [], [], []⟩⟩

def exampleStream : StreamModel := ⟨"s2", []⟩

def examplePump : PumpModel := ⟨"pu", "st", "st"⟩

def exampleSource : SourceReaderModel := ⟨"sr", "st"⟩

def exampleSink : SinkWriterModel := ⟨"sw", "st"⟩

/-- Witness for claim C1, each mutation applied on its own to a concrete
pipeline on which it succeeds. -/
theorem C1_success_bumps_version_and_names_witness :
    ((examplePipeline.add_stream exampleStream).1.version = examplePipeline.version + 1 ∧
      exampleStream.name ∉ examplePipeline.object_names ∧
      (examplePipeline.add_stream exampleStream).1.object_names =
        exampleStream.name :: examplePipeline.object_names) ∧
    ((examplePipeline.add_pump examplePump).1.version = examplePipeline.version + 1 ∧
      examplePump.name ∉ examplePipeline.object_names ∧
      (examplePipeline.add_pump examplePump).1.object_names =
        examplePump.name :: examplePipeline.object_names) ∧
    ((examplePipeline.add_source_reader exampleSource).1.version =
        examplePipeline.version + 1 ∧
      (examplePipeline.add_source_reader exampleSource).1.object_names =
        examplePipeline.object_names) ∧
    ((examplePipeline.add_sink_writer exampleSink).1.version =
        examplePipeline.version + 1 ∧
      (examplePipeline.add_sink_writer exampleSink).1.object_names =
        examplePipeline.object_names) := by
  have h := C1_success_bumps_version_and_names examplePipeline exampleStream
    examplePump exampleSource exampleSink
  exact ⟨h.1 (examplePipeline.add_stream exampleStream).1 (by decide),
    h.2.1 (examplePipeline.add_pump examplePump).1 (by decide),
    h.2.2.1 (examplePipeline.add_source_reader exampleSource).1 (by decide),
    h.2.2.2 (examplePipeline.add_sink_writer exampleSink).1 (by decide)⟩

/-- A pipeline in which the name "s" is already taken by a stream. -/
def dupPipeline : Pipeline := ⟨1, ["s"], ⟨[⟨"s", []⟩], [], [], []⟩⟩

def dupStream : StreamModel := ⟨"s", []⟩

/-- Claim C2 counterexample: at this concrete pipeline the repeated CREATE
STREAM fails with `Sql`, yet the `Pipeline` value is NOT left unchanged — its
version moved from 1 to 2, because `update_version` runs before the name
check in `Pipeline::add_stream`. -/
theorem C2_failed_mutation_still_bumps_version :
    (dupPipeline.add_stream dupStream).2 = some SpringErrorKind.Sql ∧
    dupPipeline.version = 1 ∧
    (dupPipeline.add_stream dupStream).1.version = 2 := by decide

/-- Claim C2 (amended): a pipeline mutation that fails leaves the unique-name
set and the graph unchanged (for add_pump, the name set is unchanged when the
failure is the name clash itself), but the version is nonetheless incremented
by 1, since `update_version` precedes all validation. -/
theorem C2_failed_mutation_state (p : Pipeline) (s : StreamModel)
    (pm : PumpModel) (sr : SourceReaderModel) (sw : SinkWriterModel) :
    (∀ ps es, p.add_stream s = (ps, some es) →
      ps.object_names = p.object_names ∧ ps.graph = p.graph ∧
      ps.version = p.version + 1) ∧
    (∀ pp ep, p.add_pump pm = (pp, some ep) →
      pp.graph = p.graph ∧ pp.version = p.version + 1 ∧
      (pm.name ∈ p.object_names → pp.object_names = p.object_names)) ∧
    (∀ q e, p.add_source_reader sr = (q, some e) →
      q.object_names = p.object_names ∧ q.graph = p.graph ∧
      q.version = p.version + 1) ∧
    (∀ q e, p.add_sink_writer sw = (q, some e) →
      q.object_names = p.object_names ∧ q.graph = p.graph ∧
      q.version = p.version + 1) := by
  refine ⟨?_, ?_, ?_, ?_⟩
  · intro ps es hs
    by_cases hmem : s.name ∈ p.object_names
    · simp [Pipeline.add_stream, Pipeline.update_version, Pipeline.register_name,
        hmem, Prod.mk.injEq] at hs
      rw [← hs.1]
      exact ⟨rfl, rfl, rfl⟩
    · simp [Pipeline.add_stream, Pipeline.update_version, Pipeline.register_name,
        PipelineGraph.add_stream, hmem] at hs
  · intro pp ep hp
    by_cases hmem : pm.name ∈ p.object_names
    · simp [Pipeline.add_pump, Pipeline.update_version, Pipeline.register_name,
        hmem, Prod.mk.injEq] at hp
      rw [← hp.1]
      exact ⟨rfl, rfl, fun _ => rfl⟩
    · by_cases hg : (p.graph.hasStream pm.upstream && p.graph.hasStream pm.downstream) = true
      · simp [Pipeline.add_pump, Pipeline.update_version, Pipeline.register_name,
          PipelineGraph.add_pump, hmem, hg] at hp
      · simp [Pipeline.add_pump, Pipeline.update_version, Pipeline.register_name,
          PipelineGraph.add_pump, hmem, hg, Prod.mk.injEq] at hp
        rw [← hp.1]
        exact ⟨rfl, rfl, fun hin => absurd hin hmem⟩
  · intro q e hq
    by_cases hg : p.graph.hasStream sr.dest_stream
    · simp [Pipeline.add_source_reader, Pipeline.update_version,
        PipelineGraph.add_source_reader, hg] at hq
    · simp [Pipeline.add_source_reader, Pipeline.update_version,
        PipelineGraph.add_source_reader, hg, Prod.mk.injEq] at hq
      rw [← hq.1]
      exact ⟨rfl, rfl, rfl⟩
  · intro q e hq
    by_cases hg : p.graph.hasStream sw.from_stream
    · simp [Pipeline.add_sink_writer, Pipeline.update_version,
        PipelineGraph.add_sink_writer, hg] at hq
    · simp [Pipeline.add_sink_writer, Pipeline.update_version,
        PipelineGraph.add_sink_writer, hg, Prod.mk.injEq] at hq
      rw [← hq.1]
      exact ⟨rfl, rfl, rfl⟩

/-- Witness for the amended claim C2 at a concrete pipeline where all four
mutations fail (duplicate name for stream and pump; missing destination /
origin stream for the source reader and sink writer). -/
theorem C2_failed_mutation_state_witness :
    ((dupPipeline.add_stream dupStream).1.object_names = dupPipeline.object_names ∧
      (dupPipeline.add_stream dupStream).1.graph = dupPipeline.graph ∧
      (dupPipeline.add_stream dupStream).1.version = dupPipeline.version + 1) ∧
    ((dupPipeline.add_pump ⟨"s", "s", "s"⟩).1.graph = dupPipeline.graph ∧
      (dupPipeline.add_pump ⟨"s", "s", "s"⟩).1.version = dupPipeline.version + 1) ∧
    ((dupPipeline.add_source_reader ⟨"sr", "zz"⟩).1.object_names = dupPipeline.object_names ∧
      (dupPipeline.add_source_reader ⟨"sr", "zz"⟩).1.version = dupPipeline.version + 1) ∧
    ((dupPipeline.add_sink_writer ⟨"sw", "zz"⟩).1.object_names = dupPipeline.object_names ∧
      (dupPipeline.add_sink_writer ⟨"sw", "zz"⟩).1.version = dupPipeline.version + 1) := by
  have h := C2_failed_mutation_state dupPipeline dupStream ⟨"s", "s", "s"⟩ ⟨"sr", "zz"⟩ ⟨"sw", "zz"⟩
  refine ⟨?_, ?_, ?_, ?_⟩
  · exact h.1 (dupPipeline.add_stream dupStream).1 SpringErrorKind.Sql (by decide)
  · have h2 := h.2.1 (dupPipeline.add_pump ⟨"s", "s", "s"⟩).1 SpringErrorKind.Sql (by decide)
    exact ⟨h2.1, h2.2.1⟩
  · have h3 := h.2.2.1 (dupPipeline.add_source_reader ⟨"sr", "zz"⟩).1 SpringErrorKind.Sql
      (by decide)
    exact ⟨h3.1, h3.2.2⟩
  · have h4 := h.2.2.2 (dupPipeline.add_sink_writer ⟨"sw", "zz"⟩).1 SpringErrorKind.Sql
      (by decide)
    exact ⟨h4.1, h4.2.2⟩

def exampleSource2 : SourceReaderModel := ⟨"sr1", "st"⟩

/-- Claim C3 counterexample: `Pipeline::add_source_reader` does not reserve the
object's name — the unique-name set is left untouched, and applying the same
CREATE SOURCE READER twice succeeds the second time instead of failing with
`Sql`. -/
theorem C3_source_reader_skips_name_reservation :
    (examplePipeline.add_source_reader exampleSource2).2 = none ∧
    (examplePipeline.add_source_reader exampleSource2).1.object_names =
      examplePipeline.object_names ∧
    ((examplePipeline.add_source_reader exampleSource2).1.add_source_reader
      exampleSource2).2 = none := by decide

/-- Claim C3 (amended): add_stream and add_pump first reserve the object's
name against the shared unique-name set and fail with `Sql` without touching
the graph when the name is taken — so the same CREATE STREAM / CREATE PUMP
applied twice fails the second time with `Sql` — but add_source_reader and
add_sink_writer do not consult the unique-name set at all, and a repeated add
succeeds again. -/
theorem C3_name_reservation (p : Pipeline) (s : StreamModel) (pm : PumpModel)
    (sr : SourceReaderModel) (sw : SinkWriterModel) :
    (s.name ∈ p.object_names →
      (p.add_stream s).2 = some SpringErrorKind.Sql ∧
      (p.add_stream s).1.graph = p.graph) ∧
    (pm.name ∈ p.object_names →
      (p.add_pump pm).2 = some SpringErrorKind.Sql ∧
      (p.add_pump pm).1.graph = p.graph) ∧
    (∀ ps, p.add_stream s = (ps, none) →
      (ps.add_stream s).2 = some SpringErrorKind.Sql) ∧
    (∀ pp, p.add_pump pm = (pp, none) →
      (pp.add_pump pm).2 = some SpringErrorKind.Sql) ∧
    (∀ names, (({ p with object_names := names }).add_source_reader sr).2 =
      (p.add_source_reader sr).2) ∧
    (∀ names, (({ p with object_names := names }).add_sink_writer sw).2 =
      (p.add_sink_writer sw).2) ∧
    (∀ q, p.add_source_reader sr = (q, none) →
      (q.add_source_reader sr).2 = none) ∧
    (∀ q, p.add_sink_writer sw = (q, none) →
      (q.add_sink_writer sw).2 = none) := by
  refine ⟨?_, ?_, ?_, ?_, ?_, ?_, ?_, ?_⟩
  · intro hmem
    simp [Pipeline.add_stream, Pipeline.update_version, Pipeline.register_name, hmem]
  · intro hmem
    simp [Pipeline.add_pump, Pipeline.update_version, Pipeline.register_name, hmem]
  · intro ps hs
    by_cases hmem : s.name ∈ p.object_names
    · simp [Pipeline.add_stream, Pipeline.update_version, Pipeline.register_name, hmem] at hs
    · simp [Pipeline.add_stream, Pipeline.update_version, Pipeline.register_name,
        PipelineGraph.add_stream, hmem, Prod.mk.injEq] at hs
      subst hs
      simp [Pipeline.add_stream, Pipeline.update_version, Pipeline.register_name]
  · intro pp hp
    by_cases hmem : pm.name ∈ p.object_names
    · simp [Pipeline.add_pump, Pipeline.update_version, Pipeline.register_name, hmem] at hp
    · by_cases hg : (p.graph.hasStream pm.upstream && p.graph.hasStream pm.downstream) = true
      · simp [Pipeline.add_pump, Pipeline.update_version, Pipeline.register_name,
          PipelineGraph.add_pump, hmem, hg, Prod.mk.injEq] at hp
        subst hp
        simp [Pipeline.add_pump, Pipeline.update_version, Pipeline.register_name]
      · simp [Pipeline.add_pump, Pipeline.update_version, Pipeline.register_name,
          PipelineGraph.add_pump, hmem, hg] at hp
  · intro names
    by_cases hg : p.graph.hasStream sr.dest_stream
    · simp [Pipeline.add_source_reader, Pipeline.update_version,
        PipelineGraph.add_source_reader, hg]
    · simp [Pipeline.add_source_reader, Pipeline.update_version,
        PipelineGraph.add_source_reader, hg]
  · intro names
    by_cases hg : p.graph.hasStream sw.from_stream
    · simp [Pipeline.add_sink_writer, Pipeline.update_version,
        PipelineGraph.add_sink_writer, hg]
    · simp [Pipeline.add_sink_writer, Pipeline.update_version,
        PipelineGraph.add_sink_writer, hg]
  · intro q hq
    by_cases hg : p.graph.hasStream sr.dest_stream
    · simp [Pipeline.add_source_reader, Pipeline.update_version,
        PipelineGraph.add_source_reader, hg, Prod.mk.injEq] at hq
      subst hq
      simp [PipelineGraph.hasStream] at hg
      simp [Pipeline.add_source_reader, Pipeline.update_version,
        PipelineGraph.add_source_reader, PipelineGraph.hasStream, hg]
    · simp [Pipeline.add_source_reader, Pipeline.update_version,
        PipelineGraph.add_source_reader, hg] at hq
  · intro q hq
    by_cases hg : p.graph.hasStream sw.from_stream
    · simp [Pipeline.add_sink_writer, Pipeline.update_version,
        PipelineGraph.add_sink_writer, hg, Prod.mk.injEq] at hq
      subst hq
      simp [PipelineGraph.hasStream] at hg
      simp [Pipeline.add_sink_writer, Pipeline.update_version,
        PipelineGraph.add_sink_writer, PipelineGraph.hasStream, hg]
    · simp [Pipeline.add_sink_writer, Pipeline.update_version,
        PipelineGraph.add_sink_writer, hg] at hq

/-- Witness for the amended claim C3 at a concrete pipeline. -/
theorem C3_name_reservation_witness :
    ((dupPipeline.add_stream dupStream).2 = some SpringErrorKind.Sql ∧
      (dupPipeline.add_stream dupStream).1.graph = dupPipeline.graph) ∧
    ((dupPipeline.add_pump ⟨"s", "s", "s"⟩).2 = some SpringErrorKind.Sql ∧
      (dupPipeline.add_pump ⟨"s", "s", "s"⟩).1.graph = dupPipeline.graph) ∧
    ((dupPipeline.add_source_reader ⟨"sr1", "s"⟩).1.add_source_reader
      ⟨"sr1", "s"⟩).2 = none := by
  have h := C3_name_reservation dupPipeline dupStream ⟨"s", "s", "s"⟩ ⟨"sr1", "s"⟩
    ⟨"sw1", "s"⟩
  refine ⟨h.1 (by decide), h.2.1 (by decide), ?_⟩
  exact h.2.2.2.2.2.2.1 (dupPipeline.add_source_reader ⟨"sr1", "s"⟩).1 (by decide)

/-- Claim C10: `spring_open` returns `Ok` with a pipeline handle for every
configuration value; the `Error` alternative of its result type is
unreachable. -/
theorem C10_spring_open_always_ok (config : SpringConfig) :
    (∃ p, spring_open config = .ok p) ∧
    ∀ e, spring_open config ≠ .error e :=
  ⟨⟨⟨EngineMutex.new config, SqlProcessor.mk⟩, rfl⟩, fun _ h => by
    simp [spring_open] at h⟩

/-- Claim C4: `spring_pop` returns exactly the result of the first
`Some`-returning call of repeatedly invoking `spring_pop_non_blocking` on the
same queue (same row, same per-queue FIFO order — the two loop bodies agree at
every poll), and both operations fail with kind `Unavailable` when the named
in-memory queue does not exist. -/
theorem C4_pop_refines_pop_non_blocking
    (env : Nat → Option (List SinkRow)) (fuel : Nat) :
    spring_pop_loop env fuel = firstSomeOfRepeatedPopNonBlocking env fuel ∧
    (env 0 = none →
      spring_pop_loop env (fuel + 1) = some (.error .Unavailable) ∧
      spring_pop_non_blocking (env 0) = .error .Unavailable) := by
  constructor
  · induction fuel generalizing env with
    | zero => simp [spring_pop_loop, firstSomeOfRepeatedPopNonBlocking]
    | succ n ih =>
      rw [firstSomeOfRepeatedPopNonBlocking, List.range_succ_eq_map,
        List.findSome?_cons]
      rcases h0 : env 0 with _ | (_ | ⟨r, rs⟩)
      · simp [spring_pop_loop, spring_pop_non_blocking, popInMemoryQueueNonBlocking, h0]
      · simp only [spring_pop_loop, spring_pop_non_blocking,
          popInMemoryQueueNonBlocking, h0]
        rw [ih, List.findSome?_map]
        rfl
      · simp [spring_pop_loop, spring_pop_non_blocking, popInMemoryQueueNonBlocking, h0]
  · intro h0
    constructor
    · simp [spring_pop_loop, popInMemoryQueueNonBlocking, h0]
    · simp [spring_pop_non_blocking, popInMemoryQueueNonBlocking, h0]

/-- Witness for claim C4 on the undeclared queue. -/
theorem C4_pop_refines_pop_non_blocking_witness :
    spring_pop_loop (fun _ => (none : Option (List SinkRow))) (3 + 1) =
      some (.error .Unavailable) ∧
    spring_pop_non_blocking ((fun _ => (none : Option (List SinkRow))) 0) =
      .error .Unavailable :=
  (C4_pop_refines_pop_non_blocking (fun _ => none) 3).2 rfl

/-- Claim C5: `QuerySubtask::run` returns `None` exactly when the Collect
leaf's upstream queue is empty or absent, and in that case it produces no
output tuples, reports no in-queue metrics update, and leaves the queue state
untouched (no side effects). -/
theorem C5_run_none_iff_leaf_queue_empty
    (t : QuerySubtask) (ctx : TaskContext) (l : Nat) (s : String)
    (hl : t.leaf_node_idx = some l)
    (hc : t.nodes[l]? = some (.collect s)) :
    ((ctx s = none ∨ ctx s = some []) → t.run ctx = some (.ok none, ctx)) ∧
    (∀ r ctx2, t.run ctx = some (r, ctx2) →
      ((r = .ok none) ↔ (ctx s = none ∨ ctx s = some [])) ∧
      (r = .ok none → ctx2 = ctx)) := by
  constructor
  · intro h
    rcases h with h | h <;>
      simp [QuerySubtask.run, hl, QuerySubtask.run_leaf, hc, collectRun, h]
  · intro r ctx2 hr
    rcases hq : ctx s with _ | (_ | ⟨tu, rest⟩)
    · simp only [QuerySubtask.run, hl, QuerySubtask.run_leaf, hc, collectRun, hq,
        Option.some.injEq, Prod.mk.injEq] at hr
      obtain ⟨h1, h2⟩ := hr
      exact ⟨by simp [← h1], fun _ => h2.symm⟩
    · simp only [QuerySubtask.run, hl, QuerySubtask.run_leaf, hc, collectRun, hq,
        Option.some.injEq, Prod.mk.injEq] at hr
      obtain ⟨h1, h2⟩ := hr
      exact ⟨by simp [← h1, hq], fun _ => h2.symm⟩
    · simp only [QuerySubtask.run, hl, QuerySubtask.run_leaf, hc, collectRun, hq] at hr
      rcases hru : t.runUp (t.nodes.length + 1) l [tu] with _ | (e | fin) <;>
        rw [hru] at hr
      · simp at hr
      · simp only [Option.some.injEq, Prod.mk.injEq] at hr
        obtain ⟨h1, h2⟩ := hr
        constructor
        · constructor
          · intro hrn; rw [← h1] at hrn; exact absurd hrn (by simp)
          · intro hempty; rcases hempty with h | h <;> simp [hq] at h
        · intro hrn; rw [← h1] at hrn; exact absurd hrn (by simp)
      · simp only [Option.some.injEq, Prod.mk.injEq] at hr
        obtain ⟨h1, h2⟩ := hr
        constructor
        · constructor
          · intro hrn; rw [← h1] at hrn; exact absurd hrn (by simp)
          · intro hempty; rcases hempty with h | h <;> simp [hq] at h
        · intro hrn; rw [← h1] at hrn; exact absurd hrn (by simp)

/-- A subtask tree consisting of a single Collect leaf on stream "s". -/
def leafOnlyTree : QuerySubtask := ⟨[.collect "s"], []⟩

/-- Witness for claim C5: on an empty queue the run yields `Ok(None)` and the
queue state is unchanged. -/
theorem C5_run_none_iff_leaf_queue_empty_witness :
    leafOnlyTree.run (fun _ => some []) = some (.ok none, fun _ => some []) :=
  (C5_run_none_iff_leaf_queue_empty leafOnlyTree (fun _ => some []) 0 "s"
    rfl rfl).1 (Or.inr rfl)

/-! ### Unfolding and composition lemmas for the subtask tree -/

theorem parentChain_zero (t : QuerySubtask) (idx : Nat) :
    t.parentChain 0 idx = [] := rfl

theorem parentChain_succ (t : QuerySubtask) (fuel idx : Nat) :
    t.parentChain (fuel + 1) idx =
      match t.parent_node_idx idx with
      | none => []
      | some p => p :: t.parentChain fuel p := rfl

theorem runUp_succ (t : QuerySubtask) (fuel idx : Nat) (tus : List Tuple) :
    t.runUp (fuel + 1) idx tus =
      match t.parent_node_idx idx with
      | none => some (.ok tus)
      | some p =>
        match t.stepTuples p tus with
        | none => none
        | some (.error e) => some (.error e)
        | some (.ok next) => t.runUp fuel p next := rfl

/-- `run_non_leaf` is the application of the node's denoted transformer. -/
theorem run_non_leaf_eq_nodeFun (t : QuerySubtask) (idx : Nat) (tu : Tuple) :
    t.run_non_leaf idx tu = (t.nodeFun idx).map (fun f => f tu) := by
  unfold QuerySubtask.run_non_leaf QuerySubtask.nodeFun
  cases hn : t.nodes[idx]? with
  | none => rfl
  | some node => cases node <;> rfl

/-- One level of the run loop concatenates, in input order, the images of the
input tuples under the node's transformer. -/
theorem stepTuples_eq_applyOneLevel (t : QuerySubtask) (idx : Nat)
    (f : Tuple → Except SpringErrorKind (List Tuple))
    (hf : t.nodeFun idx = some f) :
    ∀ tus, t.stepTuples idx tus = some (applyOneLevel f tus) := by
  intro tus
  induction tus with
  | nil => rfl
  | cons tu rest ih =>
    rw [QuerySubtask.stepTuples, run_non_leaf_eq_nodeFun, hf]
    cases hft : f tu with
    | error e => simp [applyOneLevel, hft]
    | ok us =>
      rw [ih]
      cases hrest : applyOneLevel f rest <;> simp [applyOneLevel, hft, hrest]

/-- The leaf-to-root loop of `run` is the chain application of the denoted
operators along the parent chain. -/
theorem runUp_eq_applyChain (t : QuerySubtask) :
    ∀ fuel idx tus fs,
      t.parentChain fuel idx = t.parentChain (fuel + 1) idx →
      (t.parentChain fuel idx).mapM t.nodeFun = some fs →
      t.runUp (fuel + 1) idx tus = some (applyChain fs tus) := by
  intro fuel
  induction fuel with
  | zero =>
    intro idx tus fs hstab hmap
    rw [runUp_succ]
    cases hp : t.parent_node_idx idx with
    | none =>
      rw [parentChain_zero, List.mapM_nil] at hmap
      have hfs : ([] : List (Tuple → Except SpringErrorKind (List Tuple))) = fs :=
        Option.some.inj hmap
      rw [← hfs]
      rfl
    | some p =>
      exfalso
      rw [parentChain_zero, parentChain_succ, hp] at hstab
      exact List.cons_ne_nil _ _ hstab.symm
  | succ n ih =>
    intro idx tus fs hstab hmap
    rw [runUp_succ]
    cases hp : t.parent_node_idx idx with
    | none =>
      rw [parentChain_succ, hp, List.mapM_nil] at hmap
      have hfs : ([] : List (Tuple → Except SpringErrorKind (List Tuple))) = fs :=
        Option.some.inj hmap
      rw [← hfs]
      rfl
    | some p =>
      rw [parentChain_succ, hp] at hmap
      rw [parentChain_succ t n idx, hp, parentChain_succ t (n + 1) idx, hp,
        List.cons.injEq] at hstab
      rw [List.mapM_cons] at hmap
      cases hfp : t.nodeFun p with
      | none => rw [hfp] at hmap; simp at hmap
      | some fp =>
        rw [hfp] at hmap
        cases hrest : (t.parentChain n p).mapM t.nodeFun with
        | none => rw [hrest] at hmap; simp at hmap
        | some fsr =>
          rw [hrest] at hmap
          have hfs : fp :: fsr = fs := Option.some.inj hmap
          rw [← hfs]
          dsimp only
          rw [stepTuples_eq_applyOneLevel t p fp hfp]
          cases hone : applyOneLevel fp tus with
          | error e => simp [applyChain, hone]
          | ok next =>
            simp only [applyChain, hone]
            exact ih p next fsr hstab.2 hrest

/-- Claim C6: on every input tuple on which they succeed, the Projection and
EvalValueExpr subtask nodes produce exactly one output tuple; one level of the
run loop maps each input tuple, in order, to the concatenation of its images;
and `QuerySubtask::run` applies the operator chain from the Collect leaf to
the root, its output being the chain application of the denoted operators to
the collected tuple. -/
theorem C6_run_applies_operator_chain (t : QuerySubtask) :
    (∀ idx f tu u, t.nodes[idx]? = some (.projection f) → f tu = .ok u →
      t.run_non_leaf idx tu = some (.ok [u])) ∧
    (∀ idx f tu u, t.nodes[idx]? = some (.evalValueExpr f) → f tu = .ok u →
      t.run_non_leaf idx tu = some (.ok [u])) ∧
    (∀ idx f tus, t.nodeFun idx = some f →
      t.stepTuples idx tus = some (applyOneLevel f tus)) ∧
    (∀ ctx l s tu rest fs,
      t.leaf_node_idx = some l →
      t.nodes[l]? = some (.collect s) →
      ctx s = some (tu :: rest) →
      t.parentChain t.nodes.length l = t.parentChain (t.nodes.length + 1) l →
      (t.parentChain t.nodes.length l).mapM t.nodeFun = some fs →
      t.run ctx =
        some (match applyChain fs [tu] with
          | .error e => (.error e, updateQueue ctx s rest)
          | .ok fin =>
            (.ok (some ⟨fin, ⟨1, tu.length⟩⟩), updateQueue ctx s rest))) := by
  refine ⟨?_, ?_, ?_, ?_⟩
  · intro idx f tu u hn hf
    simp [QuerySubtask.run_non_leaf, hn, hf, Except.map]
  · intro idx f tu u hn hf
    simp [QuerySubtask.run_non_leaf, hn, hf, Except.map]
  · exact fun idx f tus hf => stepTuples_eq_applyOneLevel t idx f hf tus
  · intro ctx l s tu rest fs hl hc hq hstab hmap
    have hrup := runUp_eq_applyChain t t.nodes.length l [tu] fs hstab hmap
    simp only [QuerySubtask.run, hl, QuerySubtask.run_leaf, hc, collectRun, hq]
    rw [hrup]
    cases happ : applyChain fs [tu] <;> rfl

/-- A three-node chain: Projection over EvalValueExpr over a Collect leaf. -/
def chainTree : QuerySubtask :=
  ⟨[.projection (fun tu => .ok (("p", SqlValue.int 1) :: tu)),
    .evalValueExpr (fun tu => .ok (("e", SqlValue.int 2) :: tu)),
    .collect "s"],
   [(0, 1, .left), (1, 2, .left)]⟩

/-- A queue state with one tuple waiting on stream "s". -/
def chainCtx : TaskContext :=
  fun n => if n == "s" then some [[("c", SqlValue.int 0)]] else none

/-- The denoted operators along the chain of `chainTree`, leaf-nearest first. -/
def chainFs : List (Tuple → Except SpringErrorKind (List Tuple)) :=
  [fun tu => (Except.ok (("e", SqlValue.int 2) :: tu) :
      Except SpringErrorKind Tuple).map (fun u => [u]),
   fun tu => (Except.ok (("p", SqlValue.int 1) :: tu) :
      Except SpringErrorKind Tuple).map (fun u => [u])]

/-- Witness for claim C6 on the concrete chain: the run consumes the collected
tuple, pushes it through EvalValueExpr then Projection (one output each), and
yields the fully transformed tuple with the leaf's metrics. -/
theorem C6_run_applies_operator_chain_witness :
    chainTree.run chainCtx =
      some (.ok (some ⟨[[("p", SqlValue.int 1), ("e", SqlValue.int 2),
          ("c", SqlValue.int 0)]], ⟨1, 1⟩⟩),
        updateQueue chainCtx "s" []) :=
  (C6_run_applies_operator_chain chainTree).2.2.2 chainCtx 2 "s"
    [("c", SqlValue.int 0)] [] chainFs rfl rfl rfl rfl rfl

/-- A compiled tree with TWO Collect leaves under one parent, shaped as a
two-input join plan would be. -/
def twoLeafTree : QuerySubtask :=
  ⟨[.projection (fun tu => .ok tu), .collect "a", .collect "b"],
   [(0, 1, .left), (0, 2, .right)]⟩

/-- Both sides hold one tuple with the same join key. -/
def joinCtxFull : TaskContext :=
  fun n =>
    if n == "a" then some [[("k", SqlValue.int 1)]]
    else if n == "b" then some [[("k", SqlValue.int 1)]] else none

/-- Same driving side, but the probe side "b" is empty. -/
def joinCtxEmptyB : TaskContext :=
  fun n =>
    if n == "a" then some [[("k", SqlValue.int 1)]]
    else if n == "b" then some [] else none

/-- Claim C7 counterexample: on a two-Collect-leaf tree whose probe side holds
a matching tuple, the run emits the driving tuple unchanged (no join output),
its result is identical to the run with an empty probe side, and the probe
side's queue is never consumed — the compiled subtask tree does not evaluate
a join. -/
theorem C7_two_leaf_run_ignores_second_leaf :
    (twoLeafTree.run joinCtxFull).map Prod.fst =
      some (.ok (some ⟨[[("k", SqlValue.int 1)]], ⟨1, 1⟩⟩)) ∧
    (twoLeafTree.run joinCtxFull).map Prod.fst =
      (twoLeafTree.run joinCtxEmptyB).map Prod.fst ∧
    (twoLeafTree.run joinCtxFull).map (fun pr => pr.2 "b") =
      some (some [[("k", SqlValue.int 1)]]) :=
  ⟨rfl, rfl, rfl⟩

/-- Claim C7 (amended): the query plan's lower operation (`JoinOp`) indeed
describes one or two Collect leaves (two for a join), but the compiled subtask
tree does not evaluate a join: the subtask node kinds are only Collect,
Projection and EvalValueExpr (there is no Join subtask), and a run reads
exactly one leaf — the first node without outgoing edges — leaving every
other queue untouched (multiple leaves are a TODO in the source). -/
theorem C7_plan_join_but_single_leaf_execution (t : QuerySubtask)
    (ctx : TaskContext) (l : Nat) (s : String)
    (hl : t.leaf_node_idx = some l)
    (hc : t.nodes[l]? = some (.collect s)) :
    (∀ j : JoinOp, j.numCollectLeaves = 1 ∨ j.numCollectLeaves = 2) ∧
    (∀ n : QuerySubtaskNode, (∃ st, n = .collect st) ∨
      (∃ f, n = .projection f) ∨ (∃ f, n = .evalValueExpr f)) ∧
    (∀ r ctx2 q, t.run ctx = some (r, ctx2) → q ≠ s → ctx2 q = ctx q) := by
  refine ⟨?_, ?_, ?_⟩
  · intro j
    cases j with
    | collect op => exact Or.inl rfl
    | join left right jt on_expr => exact Or.inr rfl
  · intro n
    cases n with
    | collect st => exact Or.inl ⟨st, rfl⟩
    | projection f => exact Or.inr (Or.inl ⟨f, rfl⟩)
    | evalValueExpr f => exact Or.inr (Or.inr ⟨f, rfl⟩)
  · intro r ctx2 q hr hq
    rcases hcs : ctx s with _ | (_ | ⟨tu, rest⟩)
    · simp only [QuerySubtask.run, hl, QuerySubtask.run_leaf, hc, collectRun, hcs,
        Option.some.injEq, Prod.mk.injEq] at hr
      rw [← hr.2]
    · simp only [QuerySubtask.run, hl, QuerySubtask.run_leaf, hc, collectRun, hcs,
        Option.some.injEq, Prod.mk.injEq] at hr
      rw [← hr.2]
    · simp only [QuerySubtask.run, hl, QuerySubtask.run_leaf, hc, collectRun, hcs] at hr
      rcases hru : t.runUp (t.nodes.length + 1) l [tu] with _ | (e | fin) <;>
        rw [hru] at hr
      · simp at hr
      · simp only [Option.some.injEq, Prod.mk.injEq] at hr
        rw [← hr.2]
        simp [updateQueue, hq]
      · simp only [Option.some.injEq, Prod.mk.injEq] at hr
        rw [← hr.2]
        simp [updateQueue, hq]

/-- Witness for the amended claim C7: the two-leaf tree reads only the first
leaf "a"; the queue of "b" is exactly as before the run. -/
theorem C7_plan_join_but_single_leaf_execution_witness :
    ((JoinOp.join ⟨"a"⟩ ⟨"b"⟩ JoinType.leftOuter
        (ValueExpr.field "k")).numCollectLeaves = 1 ∨
      (JoinOp.join ⟨"a"⟩ ⟨"b"⟩ JoinType.leftOuter
        (ValueExpr.field "k")).numCollectLeaves = 2) ∧
    updateQueue joinCtxFull "a" [] "b" = joinCtxFull "b" := by
  have h := C7_plan_join_but_single_leaf_execution twoLeafTree joinCtxFull 1 "a"
    rfl rfl
  refine ⟨h.1 _, ?_⟩
  exact h.2.2 (.ok (some ⟨[[("k", SqlValue.int 1)]], ⟨1, 1⟩⟩))
    (updateQueue joinCtxFull "a" []) "b" rfl (by decide)

/-- Building the column map succeeds (no duplicate-name panic) whenever the
accumulated and incoming column names are duplicate-free, and preserves the
pairs in order. -/
theorem mk_column_values_aux_nodup :
    ∀ (pairs : List (String × SqlValue)) (acc : ColumnValues),
      ((acc.entries ++ pairs).map Prod.fst).Nodup →
      mk_column_values_aux pairs acc = some ⟨acc.entries ++ pairs⟩ := by
  intro pairs
  induction pairs with
  | nil => intro acc _; simp [mk_column_values_aux]
  | cons pr rest ih =>
    intro acc hnd
    obtain ⟨n, v⟩ := pr
    have hnotin : n ∉ acc.entries.map Prod.fst := by
      rw [List.map_append] at hnd
      have hdisj := (List.nodup_append.mp hnd).2.2
      intro hmem
      exact hdisj hmem (by simp)
    have hany : acc.entries.any (fun p => p.1 == n) = false := by
      rw [List.any_eq_false]
      intro p hp h
      have hpn : p.1 = n := by simpa using h
      exact hnotin (hpn ▸ List.mem_map_of_mem Prod.fst hp)
    rw [mk_column_values_aux, ColumnValues.insert, hany]
    simp only [Bool.false_eq_true, if_false]
    have hnd2 : (((⟨acc.entries ++ [(n, v)]⟩ : ColumnValues).entries ++ rest).map
        Prod.fst).Nodup := by
      simpa [List.append_assoc] using hnd
    rw [ih ⟨acc.entries ++ [(n, v)]⟩ hnd2]
    simp [List.append_assoc]

/-- Claim C8: when a tuple is committed to a row at the pump's downstream
boundary, `SqlValues::into_row` reorders the labelled values to match the
downstream stream shape; under the precondition that arity, column names and
value types conform to that shape (guaranteed by plan validation), none of the
panicking branches (arity assert, duplicate-column expect, type-mismatch
expect) fires and a well-formed `Row` in shape order is returned. -/
theorem C8_into_row_reorders_to_shape
    (vals : SqlValues) (sm : StreamModel) (order : List String)
    (hlen : vals.length = order.length)
    (hshape : order.length = sm.shape.length)
    (hnodup : order.Nodup)
    (hconf : ∀ c ∈ sm.shape,
      (match (order.zip vals).lookup c.name with
       | some v => v.conformsTo c
       | none => false) = true) :
    vals.into_row sm order =
      some ⟨sm.shape.map (fun c =>
        (c.name, ((order.zip vals).lookup c.name).getD .null))⟩ := by
  have hmk : mk_column_values_aux (order.zip vals) ⟨[]⟩ = some ⟨order.zip vals⟩ := by
    apply mk_column_values_aux_nodup
    have hmf : (order.zip vals).map Prod.fst = order := by
      apply List.map_fst_zip
      omega
    have h0 : ((⟨[]⟩ : ColumnValues).entries ++ order.zip vals) = order.zip vals := rfl
    rw [h0, hmf]
    exact hnodup
  rw [SqlValues.into_row]
  rw [if_pos (by simpa using hlen)]
  rw [hmk]
  dsimp only
  have hcond : ((order.zip vals).length == sm.shape.length
      && sm.shape.all (fun c =>
          match (order.zip vals).lookup c.name with
          | some v => v.conformsTo c
          | none => false)) = true := by
    rw [Bool.and_eq_true]
    constructor
    · simp [List.length_zip]
      omega
    · rw [List.all_eq_true]
      exact hconf
  simp only [StreamColumns.new, hcond, if_true]

/-- Witness for claim C8: the labelled values arriving in order (c2, c1) are
reordered into the downstream shape (c1, c2). -/
theorem C8_into_row_reorders_to_shape_witness :
    SqlValues.into_row [.text "x", .int 3]
        ⟨"down", [⟨"c1", .integer, false⟩, ⟨"c2", .text, false⟩]⟩
        ["c2", "c1"] =
      some ⟨[("c1", SqlValue.int 3), ("c2", SqlValue.text "x")]⟩ :=
  C8_into_row_reorders_to_shape [.text "x", .int 3]
    ⟨"down", [⟨"c1", .integer, false⟩, ⟨"c2", .text, false⟩]⟩
    ["c2", "c1"] (by decide) (by decide) (by decide) (by decide)

/-- Every failure of the per-column wire-format conversion carries kind
`ForeignIo`. -/
theorem columnFromJson_error (json : JsonObject) (c : ColumnDef) (e : SpringErrorKind)
    (h : columnFromJson json c = .error e) : e = .ForeignIo := by
  obtain ⟨cname, cty, cnull⟩ := c
  unfold columnFromJson at h
  cases hl : List.lookup cname json with
  | none =>
    rw [hl] at h
    cases cnull <;> simp at h
    exact h.symm
  | some jv =>
    rw [hl] at h
    cases jv <;> cases cty <;> cases cnull <;>
      simp [coerceJson, Except.map] at h <;>
      exact h.symm

/-- Every failure of the whole-row wire-format conversion carries kind
`ForeignIo`. -/
theorem intoRowAux_error_kind (json : JsonObject) :
    ∀ (shape : List ColumnDef) (e : SpringErrorKind),
      intoRowAux json shape = .error e → e = .ForeignIo := by
  intro shape
  induction shape with
  | nil => intro e h; simp [intoRowAux] at h
  | cons c rest ih =>
    intro e h
    rw [intoRowAux] at h
    cases hc : columnFromJson json c with
    | error e2 =>
      rw [hc] at h
      have he : e2 = e := by simpa using h
      exact he ▸ columnFromJson_error json c e2 hc
    | ok p =>
      rw [hc] at h
      cases hrest : intoRowAux json rest with
      | error e3 =>
        rw [hrest] at h
        have he : e3 = e := by simpa [Except.map] using h
        exact he ▸ ih e3 hrest
      | ok l =>
        rw [hrest] at h
        simp [Except.map] at h

/-- A column missing from the JSON object and nullable lands in the converted
row as `null`. -/
theorem intoRowAux_missing_nullable (json : JsonObject) :
    ∀ (shape : List ColumnDef) (c : ColumnDef) (l : List (String × SqlValue)),
      c ∈ shape → c.nullable = true → json.lookup c.name = none →
      intoRowAux json shape = .ok l → (c.name, SqlValue.null) ∈ l := by
  intro shape
  induction shape with
  | nil => intro c l hc; cases hc
  | cons c0 rest ih =>
    intro c l hc hnul hlk h
    rw [intoRowAux] at h
    cases hc0 : columnFromJson json c0 with
    | error e => rw [hc0] at h; simp at h
    | ok p =>
      rw [hc0] at h
      cases hrest : intoRowAux json rest with
      | error e => rw [hrest] at h; simp [Except.map] at h
      | ok l2 =>
        rw [hrest] at h
        have hl : p :: l2 = l := by simpa [Except.map] using h
        rcases List.mem_cons.mp hc with hceq | hmem
        · have hp : p = (c.name, SqlValue.null) := by
            rw [← hceq] at hc0
            unfold columnFromJson at hc0
            rw [hlk, hnul] at hc0
            simpa using hc0.symm
          rw [← hl, hp]
          exact List.mem_cons_self _ _
        · rw [← hl]
          exact List.mem_cons_of_mem _ (ih c l2 hmem hnul hlk hrest)

/-- A column missing from the JSON object and non-nullable makes the whole
conversion fail with kind `ForeignIo`. -/
theorem intoRowAux_missing_nonnull (json : JsonObject) :
    ∀ (shape : List ColumnDef) (c : ColumnDef), c ∈ shape →
      c.nullable = false → json.lookup c.name = none →
      intoRowAux json shape = .error .ForeignIo := by
  intro shape
  induction shape with
  | nil => intro c hc; cases hc
  | cons c0 rest ih =>
    intro c hc hnul hlk
    rw [intoRowAux]
    rcases List.mem_cons.mp hc with hceq | hmem
    · have hc0 : columnFromJson json c0 = .error .ForeignIo := by
        rw [← hceq]
        unfold columnFromJson
        rw [hlk, hnul]
        simp
      rw [hc0]
    · cases hc0 : columnFromJson json c0 with
      | error e =>
        have he := columnFromJson_error json c0 e hc0
        rw [he]
      | ok p =>
        rw [ih c hmem hnul hlk]
        simp [Except.map]

/-- A JSON field whose name belongs to no shape column does not influence the
conversion. -/
theorem intoRowAux_ignores_unknown (json : JsonObject) (n : String) (jv : JsonValue) :
    ∀ (shape : List ColumnDef), (∀ c ∈ shape, c.name ≠ n) →
      intoRowAux ((n, jv) :: json) shape = intoRowAux json shape := by
  intro shape
  induction shape with
  | nil => intro _; rfl
  | cons c rest ih =>
    intro h
    rw [intoRowAux, intoRowAux]
    have hne : (c.name == n) = false := by
      simpa using h c (List.mem_cons_self c rest)
    have hlk : List.lookup c.name ((n, jv) :: json) = List.lookup c.name json := by
      simp [List.lookup, hne]
    have hcol : columnFromJson ((n, jv) :: json) c = columnFromJson json c := by
      unfold columnFromJson
      rw [hlk]
    rw [hcol, ih (fun c2 hc2 => h c2 (List.mem_cons_of_mem c hc2))]

/-- The spec's wire-format conversion (`wireFormatIntoRow`) has the claimed
behaviour: it ignores unknown fields, maps a missing nullable field to `null`,
and fails with kind `ForeignIo` when a non-nullable field is missing.  This is
the conversion `_into_row` is intended to perform, not the stub's behaviour. -/
theorem wireFormatIntoRow_properties :
    (∀ (json : JsonObject) (sm : StreamModel) (n : String) (jv : JsonValue),
      (∀ c ∈ sm.shape, c.name ≠ n) →
      wireFormatIntoRow ((n, jv) :: json) sm = wireFormatIntoRow json sm) ∧
    (∀ (json : JsonObject) (sm : StreamModel) (c : ColumnDef) (row : Row),
      c ∈ sm.shape → c.nullable = true → json.lookup c.name = none →
      wireFormatIntoRow json sm = .ok row →
      (c.name, SqlValue.null) ∈ row.columns) ∧
    (∀ (json : JsonObject) (sm : StreamModel) (c : ColumnDef),
      c ∈ sm.shape → c.nullable = false → json.lookup c.name = none →
      wireFormatIntoRow json sm = .error .ForeignIo) := by
  refine ⟨?_, ?_, ?_⟩
  · intro json sm n jv h
    unfold wireFormatIntoRow
    rw [intoRowAux_ignores_unknown json n jv sm.shape h]
  · intro json sm c row hc hnul hlk h
    unfold wireFormatIntoRow at h
    cases haux : intoRowAux json sm.shape with
    | error e => rw [haux] at h; simp [Except.map] at h
    | ok l =>
      rw [haux] at h
      have hrow : Row.mk l = row := by simpa [Except.map] using h
      rw [← hrow]
      exact intoRowAux_missing_nullable json sm.shape c l hc hnul hlk haux
  · intro json sm c hc hnul hlk
    unfold wireFormatIntoRow
    rw [intoRowAux_missing_nonnull json sm.shape c hc hnul hlk]
    rfl

/-- A stream shape with a non-nullable integer column and a nullable text
column. -/
def wireStream : StreamModel := ⟨"s", [⟨"a", .integer, false⟩, ⟨"b", .text, true⟩]⟩

/-- Claim C9 (code bug): `ForeignInputRow::_into_row` is a `todo!()` stub that
panics on every input instead of performing the claimed conversion.  The
theorem evaluates the code as it stands — on every input, in particular on a
well-formed JSON object against a concrete shape, it produces no `Result` at
all (the panic, embedded as `none`) — and, for the divergence, evaluates the
spec-intended conversion at the same inputs: the unknown field "x" ignored and
the missing nullable "b" mapped to null on one input, and `ForeignIo` for the
missing non-nullable "a" on the other. -/
theorem C9_into_row_stub_panics :
    (∀ (json : JsonObject) (sm : StreamModel),
      ForeignInputRow.intoRow json sm = none) ∧
    ForeignInputRow.intoRow [("x", JsonValue.str "u"), ("a", JsonValue.num 5)]
      wireStream = none ∧
    wireFormatIntoRow [("x", JsonValue.str "u"), ("a", JsonValue.num 5)]
      wireStream =
      .ok ⟨[("a", SqlValue.int 5), ("b", SqlValue.null)]⟩ ∧
    wireFormatIntoRow [] wireStream = .error .ForeignIo :=
  ⟨fun _ _ => rfl, rfl, rfl, rfl⟩

end SpringQL
